import Mathlib

/-! # Request pipeline of `graphql.Do` (src/graphql.go)

A shallow embedding of `Do` together with the package-level document cache
`cachedASTs`.  The parser, the validator, the executor, the error formatter,
the source constructor and the built-in rule list live outside `graphql.go`;
they are taken as parameters (`Collaborators`).  Every collaborator that may
have effects threads an abstract `World`, so nothing below assumes that a
collaborator is deterministic unless a theorem says so.  Each collaborator
call made by `Do` is recorded, with its arguments, in `Outcome.calls`.

Two things are taken from the collaborators' interfaces: they do not write the
package variable `cachedASTs` (only `Do` does, at line 63), and the validator,
which receives the address of the request's schema, does not write through it.
Runs of `Do` are sequential; interleaved runs are outside this development.
-/

namespace graphql

/-- The Go types that `graphql.go` uses without looking inside them. -/
structure Types where
  /-- Go type `Schema`. -/
  Schema : Type
  /-- Go type `*ast.Document`; equality is pointer identity. -/
  Document : Type
  /-- Go type `func(context *ValidationContext) *ValidationRuleInstance`. -/
  Rule : Type
  /-- A non-nil Go `error` value. -/
  Error : Type
  /-- Go type `gqlerrors.FormattedError`. -/
  FormattedError : Type
  /-- Go type `interface{}` as used for the data payload of a `Result`. -/
  Value : Type
  /-- Go type `map[string]interface{}`. -/
  Object : Type
  /-- Go type `context.Context`. -/
  Context : Type
  /-- Go type `func(err error)`. -/
  ErrorHandlerFn : Type
  /-- Everything outside `Do` that a collaborator may read or change. -/
  World : Type

/-- Go struct `source.Source` (fields `Body` and `Name`). -/
structure Source where
  Body : String
  Name : String
deriving DecidableEq, Repr

/-- Go struct `parser.ParseParams`; `Do` sets the field `Source` only. -/
structure ParseParams where
  Source : Source
deriving DecidableEq, Repr

/-- Go struct `Params` (src/graphql.go, lines 11-44).  A nil slice of custom
rules is `none`; a non-nil one is `some`. -/
structure Params (T : Types) where
  Schema : T.Schema
  RequestString : String
  RootObject : T.Object
  VariableValues : T.Object
  OperationName : String
  Context : T.Context
  SkipValidation : Bool
  CustomValidationRules : Option (List T.Rule)
  ErrorHandlerFn : T.ErrorHandlerFn

/-- Go struct `Result`: a nullable data payload and a sequence of errors. -/
structure Result (T : Types) where
  Data : Option T.Value
  Errors : List T.FormattedError

/-- Go struct `ValidationResult`, the answer of `ValidateDocument`. -/
structure ValidationResult (T : Types) where
  IsValid : Bool
  Errors : List T.FormattedError

/-- Go struct `ExecuteParams`, with the seven fields `Do` fills in
(src/graphql.go, lines 82-90). -/
structure ExecuteParams (T : Types) where
  Schema : T.Schema
  Root : T.Object
  AST : T.Document
  OperationName : String
  Args : T.Object
  Context : T.Context
  ErrorHandlerFn : T.ErrorHandlerFn

/-- The functions and the variable that `Do` uses and that are defined
outside `graphql.go`. -/
structure Collaborators (T : Types) where
  /-- Function `source.NewSource`. -/
  NewSource : Source → Source
  /-- Function `parser.Parse`: an error, or a document with a nil error. -/
  Parse : ParseParams → T.World → Except T.Error T.Document × T.World
  /-- Function `gqlerrors.FormatErrors`, applied to one error. -/
  FormatErrors : T.Error → List T.FormattedError
  /-- Variable `SpecifiedRules`, the built-in rule list. -/
  SpecifiedRules : List T.Rule
  /-- Function `ValidateDocument`. -/
  ValidateDocument :
    T.Schema → T.Document → List T.Rule → T.World → ValidationResult T × T.World
  /-- Function `Execute`. -/
  Execute : ExecuteParams T → T.World → Result T × T.World

/-- Go type `map[string]*ast.Document`, the type of `cachedASTs`
(src/graphql.go, line 46): a lookup yields the stored document, or `none`
when the key is absent (`ok = false`). -/
abbrev Cache (T : Types) : Type := String → Option T.Document

/-- Value `make(map[string]*ast.Document)`, the initial `cachedASTs`. -/
def Cache.empty (T : Types) : Cache T := fun _ => none

/-- Go map assignment `m[key] = doc`. -/
def Cache.set {T : Types} (m : Cache T) (key : String) (doc : T.Document) : Cache T :=
  fun k => if k = key then some doc else m k

/-- The state `Do` runs in: the package variable `cachedASTs` and the world
of the collaborators. -/
structure State (T : Types) where
  cachedASTs : Cache T
  world : T.World

/-- One collaborator call, with the arguments it received. -/
inductive Call (T : Types) where
  | Parse (pp : ParseParams)
  | ValidateDocument (schema : T.Schema) (AST : T.Document) (rules : List T.Rule)
  | Execute (ep : ExecuteParams T)

/-- What one run of `Do` leaves behind: the returned `Result`, the state
after the run, and the collaborator calls made during the run, in order. -/
structure Outcome (T : Types) where
  result : Result T
  state : State T
  calls : List (Call T)

/-- Lines 67-72 of `Do`: start from `SpecifiedRules` and, when the custom
rules are not nil, append them one at a time. -/
def Do.rules {T : Types} (SpecifiedRules : List T.Rule)
    (CustomValidationRules : Option (List T.Rule)) : List T.Rule :=
  match CustomValidationRules with
  | none => SpecifiedRules
  | some custom => custom.foldl (fun rules rule => rules ++ [rule]) SpecifiedRules

/-- Lines 53-56 of `Do`: the source handed to the parser for a request text. -/
def Do.source {T : Types} (c : Collaborators T) (RequestString : String) : Source :=
  c.NewSource { Body := RequestString, Name := "GraphQL request" }

/-- Lines 82-90 of `Do`: call the executor with the request's parameters and
the document `AST`, and return its result. -/
def Do.execute {T : Types} (c : Collaborators T) (p : Params T) (AST : T.Document)
    (st : State T) (calls : List (Call T)) : Outcome T :=
  let ep : ExecuteParams T :=
    { Schema := p.Schema, Root := p.RootObject, AST := AST,
      OperationName := p.OperationName, Args := p.VariableValues,
      Context := p.Context, ErrorHandlerFn := p.ErrorHandlerFn }
  let e := c.Execute ep st.world
  { result := e.1, state := { st with world := e.2 }, calls := calls ++ [Call.Execute ep] }

/-- Lines 66-90 of `Do`: validation (unless skipped) and execution of the
document `AST`, in the state `st` reached after the cache lookup or the parse;
`calls` are the calls already made in this run. -/
def Do.run {T : Types} (c : Collaborators T) (p : Params T) (AST : T.Document)
    (st : State T) (calls : List (Call T)) : Outcome T :=
  if !p.SkipValidation then
    let rules := Do.rules c.SpecifiedRules p.CustomValidationRules
    let v := c.ValidateDocument p.Schema AST rules st.world
    let validationResult := v.1
    let st1 : State T := { st with world := v.2 }
    let calls1 := calls ++ [Call.ValidateDocument p.Schema AST rules]
    if !validationResult.IsValid then
      { result := { Data := none, Errors := validationResult.Errors },
        state := st1, calls := calls1 }
    else
      Do.execute c p AST st1 calls1
  else
    Do.execute c p AST st calls

/-- Function `Do` (src/graphql.go, lines 48-91).  Lines 52-64: look the
request text up in `cachedASTs`; on a miss call the parser, return the
formatted error when it fails, and store the document when it succeeds.
Then continue with lines 66-90 (`Do.run`). -/
def Do {T : Types} (c : Collaborators T) (p : Params T) (st : State T) : Outcome T :=
  match st.cachedASTs p.RequestString with
  | some AST => Do.run c p AST st []
  | none =>
    let source := Do.source c p.RequestString
    let r := c.Parse { Source := source } st.world
    let st1 : State T := { st with world := r.2 }
    let calls := [Call.Parse { Source := source }]
    match r.1 with
    | .error err =>
      { result := { Data := none, Errors := c.FormatErrors err },
        state := st1, calls := calls }
    | .ok AST =>
      Do.run c p AST { st1 with cachedASTs := st1.cachedASTs.set p.RequestString AST } calls

/-- Runs `Do` on each request of a list, one after the other, and returns the
state after the last one. -/
def DoAll {T : Types} (c : Collaborators T) : List (Params T) → State T → State T
  | [], st => st
  | p :: ps, st => DoAll c ps (Do c p st).state

/-! ## Reading the record of calls -/

/-- The parser calls of a record, in order. -/
def parseCalls {T : Types} (calls : List (Call T)) : List ParseParams :=
  calls.filterMap fun
    | Call.Parse pp => some pp
    | _ => none

/-- The validator calls of a record, in order: schema, document, rule list. -/
def validateCalls {T : Types} (calls : List (Call T)) :
    List (T.Schema × T.Document × List T.Rule) :=
  calls.filterMap fun
    | Call.ValidateDocument schema AST rules => some (schema, AST, rules)
    | _ => none

/-- The executor calls of a record, in order. -/
def executeCalls {T : Types} (calls : List (Call T)) : List (ExecuteParams T) :=
  calls.filterMap fun
    | Call.Execute ep => some ep
    | _ => none

/-- The documents handed to the validator or to the executor, in order. -/
def treesUsed {T : Types} (calls : List (Call T)) : List T.Document :=
  calls.filterMap fun
    | Call.Parse _ => none
    | Call.ValidateDocument _ AST _ => some AST
    | Call.Execute ep => some ep.AST

/-- The request text of `p` is cached in `st`, or it is absent and the parser
succeeds on it there: `AST` is the document found or parsed, and `w` is the
world at that point (unchanged on a hit, the one the parser leaves on a miss). -/
def Obtains {T : Types} (c : Collaborators T) (p : Params T) (st : State T)
    (AST : T.Document) (w : T.World) : Prop :=
  (st.cachedASTs p.RequestString = some AST ∧ w = st.world) ∨
  (st.cachedASTs p.RequestString = none ∧
    c.Parse { Source := Do.source c p.RequestString } st.world = (Except.ok AST, w))

/-- The parser is deterministic: whether it succeeds, and with which document
or error, depends on its argument only, not on the world it runs in. -/
def DeterministicParser {T : Types} (c : Collaborators T) : Prop :=
  ∀ (pp : ParseParams) (w w2 : T.World), (c.Parse pp w).1 = (c.Parse pp w2).1

/-- Every entry of the cache `m` is what the parser answers: for an entry `(s, t)`
the parser succeeds on the source of `s` with the document `t`, in every world. -/
def CacheSound {T : Types} (c : Collaborators T) (m : Cache T) : Prop :=
  ∀ (s : String) (t : T.Document), m s = some t →
    ∀ w : T.World, (c.Parse { Source := Do.source c s } w).1 = Except.ok t

/-- The parser is the function `f`: called on `pp` it answers `f pp`, whatever
the world, and it leaves the world as it found it. -/
def ParserIsFunction {T : Types} (c : Collaborators T)
    (f : ParseParams → Except T.Error T.Document) : Prop :=
  ∀ (pp : ParseParams) (w : T.World), c.Parse pp w = (f pp, w)

/-- The pipeline without a cache, written from the specification's words, run
in the world `w`: parse the text; on failure return the parse errors; unless
skipped, validate with the built-in rules followed by the custom rules and on
invalid return the validation errors; otherwise execute.  The second component
records the collaborator calls. -/
def uncachedPipeline {T : Types} (c : Collaborators T) (p : Params T) (w : T.World) :
    Result T × List (Call T) :=
  let pp : ParseParams := { Source := Do.source c p.RequestString }
  let parsed := c.Parse pp w
  match parsed.1 with
  | .error err => ({ Data := none, Errors := c.FormatErrors err }, [Call.Parse pp])
  | .ok tree =>
    let ep : ExecuteParams T :=
      { Schema := p.Schema, Root := p.RootObject, AST := tree,
        OperationName := p.OperationName, Args := p.VariableValues,
        Context := p.Context, ErrorHandlerFn := p.ErrorHandlerFn }
    if p.SkipValidation then
      ((c.Execute ep parsed.2).1, [Call.Parse pp, Call.Execute ep])
    else
      let rules := c.SpecifiedRules ++ p.CustomValidationRules.getD []
      let verdict := c.ValidateDocument p.Schema tree rules parsed.2
      if verdict.1.IsValid then
        ((c.Execute ep verdict.2).1,
          [Call.Parse pp, Call.ValidateDocument p.Schema tree rules, Call.Execute ep])
      else
        ({ Data := none, Errors := verdict.1.Errors },
          [Call.Parse pp, Call.ValidateDocument p.Schema tree rules])

/-! ## A concrete instance, used to evaluate the definitions -/

/-- Concrete types: documents, rules and worlds are numbers, errors are texts. -/
abbrev demoTypes : Types :=
  { Schema := Nat, Document := Nat, Rule := Nat, Error := String,
    FormattedError := String, Value := Nat, Object := Nat, Context := Unit,
    ErrorHandlerFn := Unit, World := Nat }

/-- Concrete collaborators.  The parser rejects the text `"query ("` and maps
every other text to its length; the validator rejects a document that equals
one of the rules it is given; the executor answers with data and one error.
The world counts the calls: 1 per parse, 10 per validation, 100 per execution. -/
def demoCollaborators : Collaborators demoTypes :=
  { NewSource := fun s => s,
    Parse := fun pp w =>
      (if pp.Source.Body = "query (" then Except.error "unexpected end of text"
        else Except.ok pp.Source.Body.length, w + 1),
    FormatErrors := fun e => [e],
    SpecifiedRules := [1, 2],
    ValidateDocument := fun _ AST rules w =>
      (if rules.contains AST then { IsValid := false, Errors := ["rule violated"] }
        else { IsValid := true, Errors := [] }, w + 10),
    Execute := fun ep w =>
      ({ Data := some (ep.AST + ep.Schema), Errors := ["resolver failed"] }, w + 100) }

/-- A concrete request for the text `s`. -/
def demoParams (s : String) (skip : Bool) (custom : Option (List Nat)) : Params demoTypes :=
  { Schema := 1000, RequestString := s, RootObject := 11, VariableValues := 22,
    OperationName := "Q", Context := (), SkipValidation := skip,
    CustomValidationRules := custom, ErrorHandlerFn := () }

/-- The state of a fresh process: empty cache, world 0. -/
def demoState : State demoTypes := { cachedASTs := Cache.empty demoTypes, world := 0 }

/-- A state whose cache holds the document 7 for the text `"query"`. -/
def demoCached : State demoTypes :=
  { cachedASTs := (Cache.empty demoTypes).set "query" 7, world := 0 }

/-- The parser of `demoCollaborators` as a function of its argument. -/
def demoParse (pp : ParseParams) : Except String Nat :=
  if pp.Source.Body = "query (" then Except.error "unexpected end of text"
  else Except.ok pp.Source.Body.length

/-- Concrete collaborators whose parser is the function `demoParse` and leaves
the world alone, and whose validator and executor read the world: the validator
rejects a document that equals a rule or the world, and the executor adds the
world to its data. -/
def demoQuiet : Collaborators demoTypes :=
  { NewSource := fun s => s,
    Parse := fun pp w => (demoParse pp, w),
    FormatErrors := fun e => [e],
    SpecifiedRules := [1, 2],
    ValidateDocument := fun _ AST rules w =>
      (if rules.contains AST || AST == w then
          { IsValid := false, Errors := ["rule violated"] }
        else { IsValid := true, Errors := [] }, w + 10),
    Execute := fun ep w =>
      ({ Data := some (ep.AST + ep.Schema + w), Errors := ["resolver failed"] }, w + 100) }

/-- A state whose cache holds, for the text `"query"`, the document 5 that
`demoParse` answers for it; the world is 3. -/
def demoSound : State demoTypes :=
  { cachedASTs := (Cache.empty demoTypes).set "query" 5, world := 3 }

/-! ## The three ways through lines 52-64 -/

section Lemmas

variable {T : Types}

theorem Do_hit (c : Collaborators T) (p : Params T) (st : State T) (AST : T.Document)
    (h : st.cachedASTs p.RequestString = some AST) :
    Do c p st = Do.run c p AST st [] := by
  simp only [Do, h]

theorem Do_miss_ok (c : Collaborators T) (p : Params T) (st : State T) (AST : T.Document)
    (h : st.cachedASTs p.RequestString = none)
    (hp : (c.Parse { Source := Do.source c p.RequestString } st.world).1 = Except.ok AST) :
    Do c p st =
      Do.run c p AST
        { cachedASTs := st.cachedASTs.set p.RequestString AST,
          world := (c.Parse { Source := Do.source c p.RequestString } st.world).2 }
        [Call.Parse { Source := Do.source c p.RequestString }] := by
  simp only [Do, h, hp]

theorem Do_miss_error (c : Collaborators T) (p : Params T) (st : State T) (err : T.Error)
    (h : st.cachedASTs p.RequestString = none)
    (hp : (c.Parse { Source := Do.source c p.RequestString } st.world).1 = Except.error err) :
    Do c p st =
      { result := { Data := none, Errors := c.FormatErrors err },
        state :=
          { cachedASTs := st.cachedASTs,
            world := (c.Parse { Source := Do.source c p.RequestString } st.world).2 },
        calls := [Call.Parse { Source := Do.source c p.RequestString }] } := by
  simp only [Do, h, hp]

/-! ## The three ways through lines 66-90 -/

theorem run_skip (c : Collaborators T) (p : Params T) (AST : T.Document) (st : State T)
    (calls : List (Call T)) (hs : p.SkipValidation = true) :
    Do.run c p AST st calls = Do.execute c p AST st calls := by
  simp [Do.run, hs]

theorem run_invalid (c : Collaborators T) (p : Params T) (AST : T.Document) (st : State T)
    (calls : List (Call T)) (hs : p.SkipValidation = false)
    (hv : (c.ValidateDocument p.Schema AST
      (Do.rules c.SpecifiedRules p.CustomValidationRules) st.world).1.IsValid = false) :
    Do.run c p AST st calls =
      { result :=
          { Data := none,
            Errors := (c.ValidateDocument p.Schema AST
              (Do.rules c.SpecifiedRules p.CustomValidationRules) st.world).1.Errors },
        state :=
          { cachedASTs := st.cachedASTs,
            world := (c.ValidateDocument p.Schema AST
              (Do.rules c.SpecifiedRules p.CustomValidationRules) st.world).2 },
        calls := calls ++ [Call.ValidateDocument p.Schema AST
          (Do.rules c.SpecifiedRules p.CustomValidationRules)] } := by
  simp [Do.run, hs, hv]

theorem run_valid (c : Collaborators T) (p : Params T) (AST : T.Document) (st : State T)
    (calls : List (Call T)) (hs : p.SkipValidation = false)
    (hv : (c.ValidateDocument p.Schema AST
      (Do.rules c.SpecifiedRules p.CustomValidationRules) st.world).1.IsValid = true) :
    Do.run c p AST st calls =
      Do.execute c p AST
        { cachedASTs := st.cachedASTs,
          world := (c.ValidateDocument p.Schema AST
            (Do.rules c.SpecifiedRules p.CustomValidationRules) st.world).2 }
        (calls ++ [Call.ValidateDocument p.Schema AST
          (Do.rules c.SpecifiedRules p.CustomValidationRules)]) := by
  simp [Do.run, hs, hv]

theorem execute_cache (c : Collaborators T) (p : Params T) (AST : T.Document) (st : State T)
    (calls : List (Call T)) :
    (Do.execute c p AST st calls).state.cachedASTs = st.cachedASTs := rfl

theorem run_cache (c : Collaborators T) (p : Params T) (AST : T.Document) (st : State T)
    (calls : List (Call T)) :
    (Do.run c p AST st calls).state.cachedASTs = st.cachedASTs := by
  unfold Do.run
  split
  · dsimp only
    split <;> rfl
  · rfl

/-- A run that starts from `Obtains` is `Do.run` on the document obtained. -/
theorem Do_of_obtains (c : Collaborators T) (p : Params T) (st : State T)
    (AST : T.Document) (w : T.World) (h : Obtains c p st AST w) :
    ∃ (m : Cache T) (calls : List (Call T)),
      Do c p st = Do.run c p AST { cachedASTs := m, world := w } calls ∧
      validateCalls calls = [] ∧ executeCalls calls = [] := by
  rcases h with ⟨hc, hw⟩ | ⟨hc, hp⟩
  · refine ⟨st.cachedASTs, [], ?_, rfl, rfl⟩
    rw [Do_hit c p st AST hc, hw]
  · refine ⟨st.cachedASTs.set p.RequestString AST,
      [Call.Parse { Source := Do.source c p.RequestString }], ?_, rfl, rfl⟩
    have h1 : (c.Parse { Source := Do.source c p.RequestString } st.world).1 = Except.ok AST := by
      rw [hp]
    have h2 : (c.Parse { Source := Do.source c p.RequestString } st.world).2 = w := by
      rw [hp]
    rw [Do_miss_ok c p st AST hc h1, h2]

/-- The calls of lines 66-90 extend the calls made so far by no parser call
and by at least one validator or executor call, each on the document `AST`. -/
theorem run_calls (c : Collaborators T) (p : Params T) (AST : T.Document) (st : State T)
    (calls : List (Call T)) :
    ∃ l : List (Call T), (Do.run c p AST st calls).calls = calls ++ l ∧
      parseCalls l = [] ∧ treesUsed l ≠ [] ∧ ∀ a ∈ treesUsed l, a = AST := by
  cases hs : p.SkipValidation with
  | true =>
    rw [run_skip c p AST st calls hs]
    exact ⟨_, rfl, rfl, by simp [treesUsed], by simp [treesUsed]⟩
  | false =>
    cases hv : (c.ValidateDocument p.Schema AST
        (Do.rules c.SpecifiedRules p.CustomValidationRules) st.world).1.IsValid with
    | false =>
      rw [run_invalid c p AST st calls hs hv]
      exact ⟨_, rfl, rfl, by simp [treesUsed], by simp [treesUsed]⟩
    | true =>
      rw [run_valid c p AST st calls hs hv]
      exact ⟨_, List.append_assoc _ _ _, rfl, by simp [treesUsed], by simp [treesUsed]⟩

/-- On a cache hit `Do` makes no parser call and hands the cached document,
and no other, to the validator or the executor. -/
theorem hit_calls (c : Collaborators T) (p : Params T) (st : State T) (t : T.Document)
    (h : st.cachedASTs p.RequestString = some t) :
    parseCalls (Do c p st).calls = [] ∧ treesUsed (Do c p st).calls ≠ [] ∧
      ∀ a ∈ treesUsed (Do c p st).calls, a = t := by
  obtain ⟨l, hl, h1, h2, h3⟩ := run_calls c p t st []
  rw [Do_hit c p st t h, hl]
  exact ⟨h1, h2, h3⟩

/-- On a cache miss `Do` calls the parser once, on the source of the request
text, whether the parser succeeds or not. -/
theorem miss_parseCalls (c : Collaborators T) (p : Params T) (st : State T)
    (h : st.cachedASTs p.RequestString = none) :
    parseCalls (Do c p st).calls = [{ Source := Do.source c p.RequestString }] := by
  cases hp : (c.Parse { Source := Do.source c p.RequestString } st.world).1 with
  | error err => rw [Do_miss_error c p st err h hp]; rfl
  | ok AST =>
    obtain ⟨l, hl, h1, -, -⟩ := run_calls c p AST
      { cachedASTs := st.cachedASTs.set p.RequestString AST,
        world := (c.Parse { Source := Do.source c p.RequestString } st.world).2 }
      [Call.Parse { Source := Do.source c p.RequestString }]
    rw [Do_miss_ok c p st AST h hp, hl]
    simp only [parseCalls] at h1 ⊢
    rw [List.filterMap_append, h1]
    rfl

/-- After a miss on which the parser succeeds, the cache is the old cache with
the request text set to the parsed document. -/
theorem miss_ok_cache (c : Collaborators T) (p : Params T) (st : State T) (t : T.Document)
    (h : st.cachedASTs p.RequestString = none)
    (hp : (c.Parse { Source := Do.source c p.RequestString } st.world).1 = Except.ok t) :
    (Do c p st).state.cachedASTs = st.cachedASTs.set p.RequestString t := by
  rw [Do_miss_ok c p st t h hp, run_cache]

theorem Cache.set_same (m : Cache T) (key : String) (doc : T.Document) :
    m.set key doc key = some doc := by
  simp [Cache.set]

theorem Cache.set_other (m : Cache T) (key k : String) (doc : T.Document) (hk : k ≠ key) :
    m.set key doc k = m k := by
  simp [Cache.set, hk]

/-- The loop of lines 69-71 appends the custom rules to the list it starts from. -/
theorem foldl_append_one (custom rules : List T.Rule) :
    custom.foldl (fun rules rule => rules ++ [rule]) rules = rules ++ custom := by
  induction custom generalizing rules with
  | nil => simp
  | cons r rest ih => simp [List.foldl_cons, ih]

theorem rules_eq (SpecifiedRules : List T.Rule) (custom : Option (List T.Rule)) :
    Do.rules SpecifiedRules custom = SpecifiedRules ++ custom.getD [] := by
  cases custom with
  | none => simp [Do.rules]
  | some l => simp [Do.rules, foldl_append_one]

theorem validateCalls_append (l1 l2 : List (Call T)) :
    validateCalls (l1 ++ l2) = validateCalls l1 ++ validateCalls l2 := by
  simp [validateCalls, List.filterMap_append]

theorem executeCalls_append (l1 l2 : List (Call T)) :
    executeCalls (l1 ++ l2) = executeCalls l1 ++ executeCalls l2 := by
  simp [executeCalls, List.filterMap_append]

/-- After any run of `Do` the cache is the old cache, or the old cache with the
request text, absent before, set to some document. -/
theorem Do_cache_cases (c : Collaborators T) (p : Params T) (st : State T) :
    (Do c p st).state.cachedASTs = st.cachedASTs ∨
    (st.cachedASTs p.RequestString = none ∧
      ∃ t, (c.Parse { Source := Do.source c p.RequestString } st.world).1 = Except.ok t ∧
        (Do c p st).state.cachedASTs = st.cachedASTs.set p.RequestString t) := by
  cases h : st.cachedASTs p.RequestString with
  | some AST => left; rw [Do_hit c p st AST h, run_cache]
  | none =>
    cases hp : (c.Parse { Source := Do.source c p.RequestString } st.world).1 with
    | error err => left; rw [Do_miss_error c p st err h hp]
    | ok t => right; exact ⟨rfl, t, rfl, miss_ok_cache c p st t h hp⟩

/-- One run of `Do` with a deterministic parser keeps the cache sound. -/
theorem Do_cacheSound (c : Collaborators T) (hdet : DeterministicParser c) (p : Params T)
    (st : State T) (hm : CacheSound c st.cachedASTs) :
    CacheSound c (Do c p st).state.cachedASTs := by
  rcases Do_cache_cases c p st with h | ⟨-, t, hp, h⟩
  · rw [h]; exact hm
  · rw [h]
    intro s u hs w
    by_cases hk : s = p.RequestString
    · subst hk
      rw [Cache.set_same] at hs
      rw [hdet _ w st.world, hp]
      exact congrArg Except.ok (Option.some.inj hs)
    · rw [Cache.set_other _ _ _ _ hk] at hs
      exact hm s u hs w

theorem DoAll_cacheSound (c : Collaborators T) (hdet : DeterministicParser c)
    (ps : List (Params T)) (st : State T) (hm : CacheSound c st.cachedASTs) :
    CacheSound c (DoAll c ps st).cachedASTs := by
  induction ps generalizing st with
  | nil => exact hm
  | cons p rest ih => exact ih _ (Do_cacheSound c hdet p st hm)

/-! ## The claims -/

/-- C1: when the request text is absent from the cache and the parser accepts
it with the document `t`, two runs of `Do` in sequence on that text call the
parser exactly once, in the first run, which stores `t`; the second run calls
no parser and every document it hands to the validator or the executor is `t`
(and it hands over at least one).  More generally, in any state whose cache
maps the request text to `t`, `Do` makes no parser call and uses `t`. -/
theorem Do_twice_parses_once (c : Collaborators T) (p1 p2 : Params T) (st : State T)
    (t : T.Document) :
    (p2.RequestString = p1.RequestString →
      st.cachedASTs p1.RequestString = none →
      (c.Parse { Source := Do.source c p1.RequestString } st.world).1 = Except.ok t →
        parseCalls (Do c p1 st).calls = [{ Source := Do.source c p1.RequestString }] ∧
        (Do c p1 st).state.cachedASTs p1.RequestString = some t ∧
        parseCalls (Do c p2 (Do c p1 st).state).calls = [] ∧
        treesUsed (Do c p2 (Do c p1 st).state).calls ≠ [] ∧
        ∀ a ∈ treesUsed (Do c p2 (Do c p1 st).state).calls, a = t) ∧
    (st.cachedASTs p1.RequestString = some t →
        parseCalls (Do c p1 st).calls = [] ∧
        treesUsed (Do c p1 st).calls ≠ [] ∧
        ∀ a ∈ treesUsed (Do c p1 st).calls, a = t) := by
  refine ⟨fun hsame hmiss hp => ?_, fun hhit => hit_calls c p1 st t hhit⟩
  have hstored : (Do c p1 st).state.cachedASTs p1.RequestString = some t := by
    rw [miss_ok_cache c p1 st t hmiss hp, Cache.set_same]
  have hstored2 : (Do c p1 st).state.cachedASTs p2.RequestString = some t := by
    rw [hsame]; exact hstored
  exact ⟨miss_parseCalls c p1 st hmiss, hstored, hit_calls c p2 _ t hstored2⟩

/-- Witness of C1 at the concrete instance: from the empty cache, two runs on
the text `"query"`; and one run on a cache that already holds the text. -/
theorem Do_twice_parses_once_witness :
    (parseCalls (Do demoCollaborators (demoParams "query" false none) demoState).calls
        = [{ Source := { Body := "query", Name := "GraphQL request" } }] ∧
      (Do demoCollaborators (demoParams "query" false none) demoState).state.cachedASTs "query"
        = some 5 ∧
      parseCalls (Do demoCollaborators (demoParams "query" true none)
        (Do demoCollaborators (demoParams "query" false none) demoState).state).calls = [] ∧
      treesUsed (Do demoCollaborators (demoParams "query" true none)
        (Do demoCollaborators (demoParams "query" false none) demoState).state).calls ≠ [] ∧
      ∀ a ∈ treesUsed (Do demoCollaborators (demoParams "query" true none)
        (Do demoCollaborators (demoParams "query" false none) demoState).state).calls, a = 5) ∧
    (parseCalls (Do demoCollaborators (demoParams "query" false none) demoCached).calls = [] ∧
      treesUsed (Do demoCollaborators (demoParams "query" false none) demoCached).calls ≠ [] ∧
      ∀ a ∈ treesUsed (Do demoCollaborators (demoParams "query" false none) demoCached).calls,
        a = 7) :=
  ⟨(Do_twice_parses_once demoCollaborators (demoParams "query" false none)
      (demoParams "query" true none) demoState 5).1 rfl rfl rfl,
   (Do_twice_parses_once demoCollaborators (demoParams "query" false none)
      (demoParams "query" false none) demoCached 7).2 rfl⟩

/-- C2: when the request text is absent from the cache and the parser fails on
it, the cache after `Do` is the cache before `Do`, it has no entry for the
text, and a later `Do` on any text that is absent from the cache calls the
parser again, once, on that text. -/
theorem failed_parse_leaves_cache (c : Collaborators T) (p : Params T) (st : State T)
    (err : T.Error)
    (h : st.cachedASTs p.RequestString = none)
    (hp : (c.Parse { Source := Do.source c p.RequestString } st.world).1 = Except.error err) :
    (Do c p st).state.cachedASTs = st.cachedASTs ∧
    (Do c p st).state.cachedASTs p.RequestString = none ∧
    ∀ p2 : Params T, st.cachedASTs p2.RequestString = none →
      parseCalls (Do c p2 (Do c p st).state).calls
        = [{ Source := Do.source c p2.RequestString }] := by
  have hc : (Do c p st).state.cachedASTs = st.cachedASTs := by
    rw [Do_miss_error c p st err h hp]
  refine ⟨hc, by rw [hc]; exact h, fun p2 h2 => ?_⟩
  exact miss_parseCalls c p2 _ (by rw [hc]; exact h2)

/-- Witness of C2: the text `"query ("` fails to parse in the fresh state. -/
theorem failed_parse_leaves_cache_witness :
    (Do demoCollaborators (demoParams "query (" false none) demoState).state.cachedASTs
      = demoState.cachedASTs ∧
    (Do demoCollaborators (demoParams "query (" false none) demoState).state.cachedASTs "query ("
      = none ∧
    ∀ p2 : Params demoTypes, demoState.cachedASTs p2.RequestString = none →
      parseCalls (Do demoCollaborators p2
        (Do demoCollaborators (demoParams "query (" false none) demoState).state).calls
        = [{ Source := Do.source demoCollaborators p2.RequestString }] :=
  failed_parse_leaves_cache demoCollaborators (demoParams "query (" false none) demoState
    "unexpected end of text" rfl rfl

/-- C3: when the request text is absent from the cache and the parser fails on
it with the error `err`, `Do` returns a `Result` with a null data payload and
the errors `FormatErrors err`, and calls neither the validator nor the
executor; the request `p` is arbitrary, so this holds for either value of
`SkipValidation`. -/
theorem parse_error_result (c : Collaborators T) (p : Params T) (st : State T)
    (err : T.Error)
    (h : st.cachedASTs p.RequestString = none)
    (hp : (c.Parse { Source := Do.source c p.RequestString } st.world).1 = Except.error err) :
    (Do c p st).result = { Data := none, Errors := c.FormatErrors err } ∧
    validateCalls (Do c p st).calls = [] ∧
    executeCalls (Do c p st).calls = [] := by
  rw [Do_miss_error c p st err h hp]
  exact ⟨rfl, rfl, rfl⟩

/-- Witness of C3: the text `"query ("` with validation skipped. -/
theorem parse_error_result_witness :
    (Do demoCollaborators (demoParams "query (" true none) demoState).result
      = { Data := none, Errors := ["unexpected end of text"] } ∧
    validateCalls (Do demoCollaborators (demoParams "query (" true none) demoState).calls = [] ∧
    executeCalls (Do demoCollaborators (demoParams "query (" true none) demoState).calls = [] :=
  parse_error_result demoCollaborators (demoParams "query (" true none) demoState
    "unexpected end of text" rfl rfl

/-- C4: with `SkipValidation` unset, when the request text is cached or parses
successfully (document `AST`, world `w` at that point) and the validator
answers `IsValid = false` with the errors `E` on the call `Do` makes, `Do`
returns a `Result` with a null data payload and exactly the errors `E`, and
the executor is not called. -/
theorem invalid_document_result (c : Collaborators T) (p : Params T) (st : State T)
    (AST : T.Document) (w : T.World) (E : List T.FormattedError)
    (hs : p.SkipValidation = false)
    (ho : Obtains c p st AST w)
    (hv : (c.ValidateDocument p.Schema AST
      (Do.rules c.SpecifiedRules p.CustomValidationRules) w).1
        = { IsValid := false, Errors := E }) :
    (Do c p st).result = { Data := none, Errors := E } ∧
    executeCalls (Do c p st).calls = [] := by
  obtain ⟨m, calls, hdo, -, hex⟩ := Do_of_obtains c p st AST w ho
  have hinv : (c.ValidateDocument p.Schema AST
      (Do.rules c.SpecifiedRules p.CustomValidationRules)
      (State.mk m w).world).1.IsValid = false := by
    show (c.ValidateDocument p.Schema AST _ w).1.IsValid = false
    rw [hv]
  rw [hdo, run_invalid c p AST _ calls hs hinv]
  refine ⟨?_, ?_⟩
  · show Result.mk none (c.ValidateDocument p.Schema AST _ w).1.Errors = _
    rw [hv]
  · show executeCalls (calls ++ _) = []
    rw [executeCalls_append, hex]
    rfl

/-- Witness of C4: the cached document 7 is rejected by the custom rule 7. -/
theorem invalid_document_result_witness :
    Obtains demoCollaborators (demoParams "query" false (some [7])) demoCached 7 0 ∧
    (Do demoCollaborators (demoParams "query" false (some [7])) demoCached).result
      = { Data := none, Errors := ["rule violated"] } ∧
    executeCalls (Do demoCollaborators (demoParams "query" false (some [7])) demoCached).calls
      = [] :=
  ⟨Or.inl ⟨rfl, rfl⟩,
   invalid_document_result demoCollaborators (demoParams "query" false (some [7])) demoCached
    7 0 ["rule violated"] rfl (Or.inl ⟨rfl, rfl⟩) rfl⟩

/-- C5: with `SkipValidation` set, `Do` makes no validator call, whatever the
validator would answer; and when the request text is cached or parses
successfully (document `AST`, world `w` at that point), the `Result` is the
one the executor returns for the request and `AST`. -/
theorem skip_validation_never_validates (c : Collaborators T) (p : Params T) (st : State T)
    (hs : p.SkipValidation = true) :
    validateCalls (Do c p st).calls = [] ∧
    ∀ (AST : T.Document) (w : T.World), Obtains c p st AST w →
      (Do c p st).result =
        (c.Execute
          { Schema := p.Schema, Root := p.RootObject, AST := AST,
            OperationName := p.OperationName, Args := p.VariableValues,
            Context := p.Context, ErrorHandlerFn := p.ErrorHandlerFn } w).1 := by
  constructor
  · cases h : st.cachedASTs p.RequestString with
    | some AST => rw [Do_hit c p st AST h, run_skip c p AST st [] hs]; rfl
    | none =>
      cases hp : (c.Parse { Source := Do.source c p.RequestString } st.world).1 with
      | error err => rw [Do_miss_error c p st err h hp]; rfl
      | ok AST => rw [Do_miss_ok c p st AST h hp, run_skip c p AST _ _ hs]; rfl
  · intro AST w ho
    obtain ⟨m, calls, hdo, -, -⟩ := Do_of_obtains c p st AST w ho
    rw [hdo, run_skip c p AST _ calls hs]
    rfl

/-- Witness of C5: the cached document 7 would be rejected by the custom rule
7, yet with validation skipped the executor's result is returned. -/
theorem skip_validation_never_validates_witness :
    (demoCollaborators.ValidateDocument 1000 7
      (Do.rules demoCollaborators.SpecifiedRules (some [7])) 0).1.IsValid = false ∧
    validateCalls (Do demoCollaborators (demoParams "query" true (some [7])) demoCached).calls
      = [] ∧
    (Do demoCollaborators (demoParams "query" true (some [7])) demoCached).result
      = { Data := some 1007, Errors := ["resolver failed"] } :=
  ⟨rfl,
   (skip_validation_never_validates demoCollaborators (demoParams "query" true (some [7]))
      demoCached rfl).1,
   (skip_validation_never_validates demoCollaborators (demoParams "query" true (some [7]))
      demoCached rfl).2 7 0 (Or.inl ⟨rfl, rfl⟩)⟩

/-- C6: with `SkipValidation` unset, when the request text is cached or parses
successfully (document `AST`), `Do` calls the validator exactly once, with the
request's schema, `AST`, and the rule list `SpecifiedRules` followed by the
custom rules in their given order; the length of that list is the sum of the
two lengths; and with nil or empty custom rules the list is `SpecifiedRules`. -/
theorem rules_passed_to_validator (c : Collaborators T) (p : Params T) (st : State T)
    (AST : T.Document) (w : T.World)
    (hs : p.SkipValidation = false)
    (ho : Obtains c p st AST w) :
    validateCalls (Do c p st).calls
      = [(p.Schema, AST, c.SpecifiedRules ++ p.CustomValidationRules.getD [])] ∧
    (c.SpecifiedRules ++ p.CustomValidationRules.getD []).length
      = c.SpecifiedRules.length + (p.CustomValidationRules.getD []).length ∧
    ((p.CustomValidationRules = none ∨ p.CustomValidationRules = some []) →
      validateCalls (Do c p st).calls = [(p.Schema, AST, c.SpecifiedRules)]) := by
  have key : validateCalls (Do c p st).calls
      = [(p.Schema, AST, c.SpecifiedRules ++ p.CustomValidationRules.getD [])] := by
    obtain ⟨m, calls, hdo, hval, -⟩ := Do_of_obtains c p st AST w ho
    rw [hdo, ← rules_eq]
    cases hv : (c.ValidateDocument p.Schema AST
        (Do.rules c.SpecifiedRules p.CustomValidationRules) (State.mk m w).world).1.IsValid with
    | false =>
      rw [run_invalid c p AST _ calls hs hv]
      show validateCalls (calls ++ _) = _
      rw [validateCalls_append, hval]
      rfl
    | true =>
      rw [run_valid c p AST _ calls hs hv]
      show validateCalls ((calls ++ _) ++ _) = _
      rw [validateCalls_append, validateCalls_append, hval]
      rfl
  refine ⟨key, List.length_append _ _, fun h => ?_⟩
  rw [key]
  rcases h with h | h <;> simp [h]

/-- Witness of C6: the custom rules `[2, 9, 2]` repeat the built-in rule 2. -/
theorem rules_passed_to_validator_witness :
    Obtains demoCollaborators (demoParams "query" false (some [2, 9, 2])) demoCached 7 0 ∧
    validateCalls
      (Do demoCollaborators (demoParams "query" false (some [2, 9, 2])) demoCached).calls
      = [(1000, 7, [1, 2, 2, 9, 2])] :=
  ⟨Or.inl ⟨rfl, rfl⟩,
   (rules_passed_to_validator demoCollaborators (demoParams "query" false (some [2, 9, 2]))
      demoCached 7 0 rfl (Or.inl ⟨rfl, rfl⟩)).1⟩

/-- C7: when the request text is cached or parses successfully (document
`AST`, world `w` at that point) and validation is skipped or passes, `Do`
returns exactly the `Result` the executor returns, and the executor is called
exactly once, with the request's schema, root object, operation name, variable
values, context and error handler, and with the document `AST`. -/
theorem executor_result_returned (c : Collaborators T) (p : Params T) (st : State T)
    (AST : T.Document) (w : T.World)
    (ho : Obtains c p st AST w)
    (hv : p.SkipValidation = true ∨
      (c.ValidateDocument p.Schema AST
        (Do.rules c.SpecifiedRules p.CustomValidationRules) w).1.IsValid = true) :
    (Do c p st).result =
      (c.Execute
        { Schema := p.Schema, Root := p.RootObject, AST := AST,
          OperationName := p.OperationName, Args := p.VariableValues,
          Context := p.Context, ErrorHandlerFn := p.ErrorHandlerFn }
        (if p.SkipValidation = true then w
          else (c.ValidateDocument p.Schema AST
            (Do.rules c.SpecifiedRules p.CustomValidationRules) w).2)).1 ∧
    executeCalls (Do c p st).calls =
      [{ Schema := p.Schema, Root := p.RootObject, AST := AST,
         OperationName := p.OperationName, Args := p.VariableValues,
         Context := p.Context, ErrorHandlerFn := p.ErrorHandlerFn }] := by
  obtain ⟨m, calls, hdo, -, hex⟩ := Do_of_obtains c p st AST w ho
  cases hs : p.SkipValidation with
  | true =>
    rw [hdo, run_skip c p AST _ calls hs]
    refine ⟨by simp [Do.execute], ?_⟩
    show executeCalls (calls ++ _) = _
    rw [executeCalls_append, hex]
    rfl
  | false =>
    have hvalid : (c.ValidateDocument p.Schema AST
        (Do.rules c.SpecifiedRules p.CustomValidationRules)
        (State.mk m w).world).1.IsValid = true := by
      rcases hv with h | h
      · rw [hs] at h; cases h
      · exact h
    rw [hdo, run_valid c p AST _ calls hs hvalid]
    refine ⟨by simp [Do.execute], ?_⟩
    show executeCalls ((calls ++ _) ++ _) = _
    rw [executeCalls_append, executeCalls_append, hex]
    rfl

/-- Witness of C7: the text `"query"` is parsed to the document 5, passes
validation, and the executor's data and error are both returned. -/
theorem executor_result_returned_witness :
    Obtains demoCollaborators (demoParams "query" false (some [7])) demoState 5 1 ∧
    (Do demoCollaborators (demoParams "query" false (some [7])) demoState).result
      = { Data := some 1005, Errors := ["resolver failed"] } ∧
    executeCalls (Do demoCollaborators (demoParams "query" false (some [7])) demoState).calls
      = [{ Schema := 1000, Root := 11, AST := 5, OperationName := "Q", Args := 22,
           Context := (), ErrorHandlerFn := () }] :=
  ⟨Or.inr ⟨rfl, rfl⟩,
   executor_result_returned demoCollaborators (demoParams "query" false (some [7])) demoState
    5 1 (Or.inr ⟨rfl, rfl⟩) (Or.inr rfl)⟩

/-- C8: when the request text is absent from the cache and the parser succeeds
on it with the document `t`, the cache after `Do` maps that exact text to `t`
(it is the old cache with this one entry set); nothing is assumed about
`SkipValidation`, the validator or the executor. -/
theorem parsed_document_stored (c : Collaborators T) (p : Params T) (st : State T)
    (t : T.Document)
    (h : st.cachedASTs p.RequestString = none)
    (hp : (c.Parse { Source := Do.source c p.RequestString } st.world).1 = Except.ok t) :
    (Do c p st).state.cachedASTs p.RequestString = some t ∧
    (Do c p st).state.cachedASTs = st.cachedASTs.set p.RequestString t := by
  have hc := miss_ok_cache c p st t h hp
  exact ⟨by rw [hc, Cache.set_same], hc⟩

/-- Witness of C8: the text `"query Q"` parses to the document 7, which the
custom rule 7 then rejects; the document is cached all the same. -/
theorem parsed_document_stored_witness :
    (Do demoCollaborators (demoParams "query Q" false (some [7])) demoState).result
      = { Data := none, Errors := ["rule violated"] } ∧
    (Do demoCollaborators (demoParams "query Q" false (some [7])) demoState).state.cachedASTs
      "query Q" = some 7 :=
  ⟨rfl,
   (parsed_document_stored demoCollaborators (demoParams "query Q" false (some [7])) demoState
      7 rfl rfl).1⟩

/-- C9: `Do` never evicts or overwrites: every entry of the cache before `Do`
is an entry, with the same document, after `Do`; and a key that is absent
before and present after is the request text. -/
theorem cache_never_evicts (c : Collaborators T) (p : Params T) (st : State T) :
    (∀ (k : String) (v : T.Document), st.cachedASTs k = some v →
      (Do c p st).state.cachedASTs k = some v) ∧
    (∀ k : String, st.cachedASTs k = none →
      (Do c p st).state.cachedASTs k ≠ none → k = p.RequestString) := by
  rcases Do_cache_cases c p st with h | ⟨hmiss, t, -, h⟩
  · rw [h]
    exact ⟨fun _ _ hk => hk, fun _ hk hne => absurd hk hne⟩
  · rw [h]
    refine ⟨fun k v hk => ?_, fun k hk hne => ?_⟩
    · have hne : k ≠ p.RequestString := by
        rintro rfl
        rw [hmiss] at hk
        cases hk
      rw [Cache.set_other _ _ _ _ hne]
      exact hk
    · by_contra hne2
      rw [Cache.set_other _ _ _ _ hne2] at hne
      exact hne hk

/-- Witness of C9: a request for a new text on a cache that holds one entry
keeps that entry, and the one key that appears is the request text. -/
theorem cache_never_evicts_witness :
    (Do demoCollaborators (demoParams "query Q" false none) demoCached).state.cachedASTs "query"
      = some 7 ∧
    (Do demoCollaborators (demoParams "query Q" false none) demoCached).state.cachedASTs "query Q"
      = some 7 ∧
    "query Q" = (demoParams "query Q" false none).RequestString :=
  ⟨(cache_never_evicts demoCollaborators (demoParams "query Q" false none) demoCached).1
      "query" 7 rfl,
   rfl,
   (cache_never_evicts demoCollaborators (demoParams "query Q" false none) demoCached).2
      "query Q" rfl (by decide)⟩

/-- C10: with a deterministic parser, after any finite sequence of `Do` calls
that starts from the empty cache, every entry `(s, t)` of the cache is such
that the parser succeeds on the source of `s` with the document `t`; and no
text on which the parser fails is a key of the cache. -/
theorem reachable_cache_sound (c : Collaborators T) (hdet : DeterministicParser c)
    (ps : List (Params T)) (w0 : T.World) :
    (∀ (s : String) (t : T.Document),
      (DoAll c ps { cachedASTs := Cache.empty T, world := w0 }).cachedASTs s = some t →
        ∀ w : T.World, (c.Parse { Source := Do.source c s } w).1 = Except.ok t) ∧
    (∀ (s : String) (err : T.Error) (w : T.World),
      (c.Parse { Source := Do.source c s } w).1 = Except.error err →
        (DoAll c ps { cachedASTs := Cache.empty T, world := w0 }).cachedASTs s = none) := by
  have hsound : CacheSound c
      (DoAll c ps { cachedASTs := Cache.empty T, world := w0 }).cachedASTs :=
    DoAll_cacheSound c hdet ps _ (fun s t hs => by simp [Cache.empty] at hs)
  refine ⟨hsound, fun s err w hp => ?_⟩
  cases hk : (DoAll c ps { cachedASTs := Cache.empty T, world := w0 }).cachedASTs s with
  | none => rfl
  | some t =>
    have := hsound s t hk w
    rw [hp] at this
    cases this

/-- Witness of C10: three requests from the fresh state, one of which fails to
parse; the cache then holds the parsed text and not the failed one. -/
theorem reachable_cache_sound_witness :
    DeterministicParser demoCollaborators ∧
    (DoAll demoCollaborators
      [demoParams "query" false none, demoParams "query (" false none,
        demoParams "query" true none]
      { cachedASTs := Cache.empty demoTypes, world := 0 }).cachedASTs "query" = some 5 ∧
    (∀ w : Nat, (demoCollaborators.Parse
      { Source := Do.source demoCollaborators "query" } w).1 = Except.ok 5) ∧
    (DoAll demoCollaborators
      [demoParams "query" false none, demoParams "query (" false none,
        demoParams "query" true none]
      { cachedASTs := Cache.empty demoTypes, world := 0 }).cachedASTs "query (" = none :=
  ⟨fun _ _ _ => rfl, rfl,
   (reachable_cache_sound demoCollaborators (fun _ _ _ => rfl)
      [demoParams "query" false none, demoParams "query (" false none,
        demoParams "query" true none] 0).1 "query" 5 rfl,
   (reachable_cache_sound demoCollaborators (fun _ _ _ => rfl)
      [demoParams "query" false none, demoParams "query (" false none,
        demoParams "query" true none] 0).2 "query (" "unexpected end of text" 0 rfl⟩

/-! ## Lemmas for the schema of a run and for the pipeline without a cache -/

/-- The calls of lines 66-90 extend the calls made so far by no parser call and
by at least one validator or executor call; each of them carries the schema of
the request and the document `AST`. -/
theorem run_calls_schema (c : Collaborators T) (p : Params T) (AST : T.Document)
    (st : State T) (calls : List (Call T)) :
    ∃ l : List (Call T), (Do.run c p AST st calls).calls = calls ++ l ∧
      parseCalls l = [] ∧
      (∀ x ∈ validateCalls l, x.1 = p.Schema ∧ x.2.1 = AST) ∧
      (∀ ep ∈ executeCalls l, ep.Schema = p.Schema ∧ ep.AST = AST) ∧
      (validateCalls l ≠ [] ∨ executeCalls l ≠ []) := by
  cases hs : p.SkipValidation with
  | true =>
    rw [run_skip c p AST st calls hs]
    exact ⟨_, rfl, rfl, by simp [validateCalls], by simp [executeCalls],
      Or.inr (by simp [executeCalls])⟩
  | false =>
    cases hv : (c.ValidateDocument p.Schema AST
        (Do.rules c.SpecifiedRules p.CustomValidationRules) st.world).1.IsValid with
    | false =>
      rw [run_invalid c p AST st calls hs hv]
      exact ⟨_, rfl, rfl, by simp [validateCalls], by simp [executeCalls],
        Or.inl (by simp [validateCalls])⟩
    | true =>
      rw [run_valid c p AST st calls hs hv]
      exact ⟨_, List.append_assoc _ _ _, rfl, by simp [validateCalls], by simp [executeCalls],
        Or.inl (by simp [validateCalls])⟩

theorem parseCalls_append (l1 l2 : List (Call T)) :
    parseCalls (l1 ++ l2) = parseCalls l1 ++ parseCalls l2 := by
  simp [parseCalls, List.filterMap_append]

/-- When the parser is the function `f` and `f` answers the document `t` for
the request text, lines 66-90 run on `t` in the world `w` return what the
pipeline without a cache returns in `w`, and make the same validator and
executor calls after the calls made so far. -/
theorem run_eq_uncached (c : Collaborators T) (f : ParseParams → Except T.Error T.Document)
    (hf : ParserIsFunction c f) (p : Params T) (t : T.Document)
    (ht : f { Source := Do.source c p.RequestString } = Except.ok t)
    (m : Cache T) (w : T.World) (calls : List (Call T)) :
    (Do.run c p t { cachedASTs := m, world := w } calls).result = (uncachedPipeline c p w).1 ∧
    validateCalls (Do.run c p t { cachedASTs := m, world := w } calls).calls
      = validateCalls calls ++ validateCalls (uncachedPipeline c p w).2 ∧
    executeCalls (Do.run c p t { cachedASTs := m, world := w } calls).calls
      = executeCalls calls ++ executeCalls (uncachedPipeline c p w).2 := by
  have hparse : c.Parse { Source := Do.source c p.RequestString } w = (Except.ok t, w) := by
    rw [hf, ht]
  cases hs : p.SkipValidation with
  | true =>
    rw [run_skip c p t _ calls hs]
    simp only [uncachedPipeline, hparse, hs, Do.execute, validateCalls_append,
      executeCalls_append]
    exact ⟨rfl, rfl, rfl⟩
  | false =>
    cases hv : (c.ValidateDocument p.Schema t
        (Do.rules c.SpecifiedRules p.CustomValidationRules)
        (State.mk m w).world).1.IsValid with
    | false =>
      rw [run_invalid c p t _ calls hs hv]
      rw [rules_eq] at hv
      simp only [uncachedPipeline, hparse, hs, rules_eq, validateCalls_append,
        executeCalls_append]
      simp only [hv]
      exact ⟨rfl, rfl, rfl⟩
    | true =>
      rw [run_valid c p t _ calls hs hv]
      rw [rules_eq] at hv
      simp only [uncachedPipeline, hparse, hs, rules_eq, Do.execute, validateCalls_append,
        executeCalls_append]
      simp [hv, validateCalls, executeCalls]

/-- C11, as stated, fails: in the fresh concrete state the text `"query"` is
absent from the cache, and the parser call `Do` makes carries the source name
`"GraphQL request"`, not `"request document"`. -/
theorem parser_source_name_counterexample :
    demoState.cachedASTs "query" = none ∧
    parseCalls (Do demoCollaborators (demoParams "query" false none) demoState).calls
      = [{ Source := { Body := "query", Name := "GraphQL request" } }] ∧
    ¬ (∀ pp ∈ parseCalls (Do demoCollaborators (demoParams "query" false none) demoState).calls,
        pp.Source.Body = "query" ∧ pp.Source.Name = "request document") := by
  refine ⟨rfl, rfl, fun h => ?_⟩
  have h1 := (h { Source := { Body := "query", Name := "GraphQL request" } }
    (List.mem_singleton.mpr rfl)).2
  revert h1
  decide

/-- C11, amended: on every cache miss `Do` calls the parser exactly once, on
the source that `NewSource` returns for the source whose body is the request
text and whose name is `"GraphQL request"`; where `NewSource` returns that
source unchanged, the parser's source has the request text as its body and
`"GraphQL request"` as its name. -/
theorem parser_source_on_miss (c : Collaborators T) (p : Params T) (st : State T)
    (hmiss : st.cachedASTs p.RequestString = none) :
    parseCalls (Do c p st).calls
      = [{ Source := c.NewSource { Body := p.RequestString, Name := "GraphQL request" } }] ∧
    (c.NewSource { Body := p.RequestString, Name := "GraphQL request" }
        = { Body := p.RequestString, Name := "GraphQL request" } →
      ∀ pp ∈ parseCalls (Do c p st).calls,
        pp.Source.Body = p.RequestString ∧ pp.Source.Name = "GraphQL request") := by
  have key := miss_parseCalls c p st hmiss
  refine ⟨key, fun hns pp hpp => ?_⟩
  rw [key, List.mem_singleton] at hpp
  subst hpp
  show (Do.source c p.RequestString).Body = _ ∧ (Do.source c p.RequestString).Name = _
  unfold Do.source
  rw [hns]
  exact ⟨rfl, rfl⟩

/-- Witness of C11, amended: a miss on the text `"query"` in the fresh state. -/
theorem parser_source_on_miss_witness :
    demoState.cachedASTs "query" = none ∧
    parseCalls (Do demoCollaborators (demoParams "query" true none) demoState).calls
      = [{ Source := { Body := "query", Name := "GraphQL request" } }] ∧
    (∀ pp ∈ parseCalls (Do demoCollaborators (demoParams "query" true none) demoState).calls,
      pp.Source.Body = "query" ∧ pp.Source.Name = "GraphQL request") :=
  ⟨rfl,
   (parser_source_on_miss demoCollaborators (demoParams "query" true none) demoState rfl).1,
   (parser_source_on_miss demoCollaborators (demoParams "query" true none) demoState rfl).2 rfl⟩

/-- C13: the cache is keyed by the request text alone.  When a first `Do`, with
any schema, misses on the text and parses it to the document `t`, a second `Do`
on the same text with any other schema finds `t` in the cache, makes no parser
call, makes at least one validator or executor call, and each of these calls
carries the schema of the second request and the document `t`. -/
theorem cache_key_ignores_schema (c : Collaborators T) (p1 p2 : Params T) (st : State T)
    (t : T.Document)
    (hsame : p2.RequestString = p1.RequestString)
    (hmiss : st.cachedASTs p1.RequestString = none)
    (hp : (c.Parse { Source := Do.source c p1.RequestString } st.world).1 = Except.ok t) :
    (Do c p1 st).state.cachedASTs p2.RequestString = some t ∧
    parseCalls (Do c p2 (Do c p1 st).state).calls = [] ∧
    (∀ x ∈ validateCalls (Do c p2 (Do c p1 st).state).calls, x.1 = p2.Schema ∧ x.2.1 = t) ∧
    (∀ ep ∈ executeCalls (Do c p2 (Do c p1 st).state).calls,
      ep.Schema = p2.Schema ∧ ep.AST = t) ∧
    (validateCalls (Do c p2 (Do c p1 st).state).calls ≠ [] ∨
      executeCalls (Do c p2 (Do c p1 st).state).calls ≠ []) := by
  have hstored : (Do c p1 st).state.cachedASTs p2.RequestString = some t := by
    rw [hsame, miss_ok_cache c p1 st t hmiss hp, Cache.set_same]
  obtain ⟨l, hl, h1, h2, h3, h4⟩ := run_calls_schema c p2 t (Do c p1 st).state []
  rw [Do_hit c p2 _ t hstored, hl]
  exact ⟨hstored, h1, h2, h3, h4⟩

/-- Witness of C13: the text `"query"` is parsed under the schema 1000 and then
requested under the schema 2000. -/
theorem cache_key_ignores_schema_witness :
    (∀ x ∈ validateCalls
        (Do demoCollaborators { demoParams "query" false none with Schema := 2000 }
          (Do demoCollaborators (demoParams "query" false none) demoState).state).calls,
        x.1 = 2000 ∧ x.2.1 = 5) ∧
    executeCalls
        (Do demoCollaborators { demoParams "query" false none with Schema := 2000 }
          (Do demoCollaborators (demoParams "query" false none) demoState).state).calls
      = [{ Schema := 2000, Root := 11, AST := 5, OperationName := "Q", Args := 22,
           Context := (), ErrorHandlerFn := () }] :=
  ⟨(cache_key_ignores_schema demoCollaborators (demoParams "query" false none)
      { demoParams "query" false none with Schema := 2000 } demoState 5 rfl rfl rfl).2.2.1,
   rfl⟩

/-- C14: when the parser is a function `f` of its argument (it answers `f pp`
in every world and leaves the world as it found it) and every entry `(s, t)` of
the cache satisfies `f` of the source of `s` = `t`, the `Result` that `Do`
returns equals the `Result` of the pipeline without a cache run in the same
world, and `Do` makes the same validator calls and the same executor calls as
that pipeline: the cache decides only whether the parser is called. -/
theorem cache_transparent (c : Collaborators T) (f : ParseParams → Except T.Error T.Document)
    (hf : ParserIsFunction c f) (p : Params T) (st : State T)
    (hsound : ∀ (s : String) (t : T.Document), st.cachedASTs s = some t →
      f { Source := Do.source c s } = Except.ok t) :
    (Do c p st).result = (uncachedPipeline c p st.world).1 ∧
    validateCalls (Do c p st).calls = validateCalls (uncachedPipeline c p st.world).2 ∧
    executeCalls (Do c p st).calls = executeCalls (uncachedPipeline c p st.world).2 := by
  cases h : st.cachedASTs p.RequestString with
  | some t =>
    rw [Do_hit c p st t h]
    exact run_eq_uncached c f hf p t (hsound _ t h) st.cachedASTs st.world []
  | none =>
    have hw : (c.Parse { Source := Do.source c p.RequestString } st.world).2 = st.world := by
      rw [hf]
    cases hfp : f { Source := Do.source c p.RequestString } with
    | error err =>
      have hp : (c.Parse { Source := Do.source c p.RequestString } st.world).1
          = Except.error err := by rw [hf, hfp]
      rw [Do_miss_error c p st err h hp]
      simp [uncachedPipeline, hp, validateCalls, executeCalls]
    | ok t =>
      have hp : (c.Parse { Source := Do.source c p.RequestString } st.world).1
          = Except.ok t := by rw [hf, hfp]
      rw [Do_miss_ok c p st t h hp, hw]
      exact run_eq_uncached c f hf p t hfp _ st.world _

/-- Witness of C14: the cache holds the document 5 for the text `"query"`, which
is what the parser answers for it; `Do` and the pipeline without a cache both
return the executor's result. -/
theorem cache_transparent_witness :
    ParserIsFunction demoQuiet demoParse ∧
    (Do demoQuiet (demoParams "query" false none) demoSound).result
      = { Data := some 1018, Errors := ["resolver failed"] } ∧
    (uncachedPipeline demoQuiet (demoParams "query" false none) 3).1
      = { Data := some 1018, Errors := ["resolver failed"] } ∧
    (Do demoQuiet (demoParams "query" false none) demoSound).result
      = (uncachedPipeline demoQuiet (demoParams "query" false none) demoSound.world).1 :=
  ⟨fun _ _ => rfl, rfl, rfl,
   (cache_transparent demoQuiet demoParse (fun _ _ => rfl) (demoParams "query" false none)
      demoSound
      (fun s t hs => by
        simp only [demoSound, Cache.set, Cache.empty] at hs
        split at hs
        · next hk =>
          subst hk
          cases hs
          rfl
        · cases hs)).1⟩

end Lemmas

end graphql
